import Mathlib

/-!
Shallow embedding of the JDWP client codec (src/commands.rs) over byte lists.

Byte streams are `List (Fin 256)`; every decoder mirrors a `BinRead`
implementation from the source, reading big-endian as the `#[brw(big)]` /
`read_be` call sites do, and returns `Except DecodeError (value × rest)`,
matching `binrw::BinResult`.

Types that `commands.rs` imports from the crate root (whose source file is not
in scope) — `JdwpIdSizes`, `TypeTag`, `ClassStatus`, `JdwpString`, the
`binrw_enum!`-generated `Command` codec — are modelled from the specification
and carry a doc comment saying so.
-/

namespace Jdwp

/-- A single octet of the wire stream (the Rust `u8`). -/
abbrev Byte := Fin 256

/-- Truncate a natural number to one octet, as Rust `as u8` / byte extraction does. -/
def byte (n : Nat) : Byte := ⟨n % 256, by omega⟩

/-- Big-endian value of a byte list, the semantics of `uN::from_be_bytes`. -/
def beValue : List Byte → Nat
  | [] => 0
  | b :: bs => b.val * 256 ^ bs.length + beValue bs

/-- Big-endian encoding of `v` on `w` octets, the semantics of `uN::to_be_bytes`
(the value is taken modulo `2 ^ (8 * w)`). -/
def beBytes : Nat → Nat → List Byte
  | 0, _ => []
  | w + 1, v => byte (v / 256 ^ w) :: beBytes w v

/-- Decode failures of the codec, mirroring `binrw::Error` as the source
produces it (truncation, the custom unsupported-width error) together with the
error kinds the specification names for the modelled types. -/
inductive DecodeError where
  | truncatedInput : DecodeError
  | unsupportedIdWidth : Nat → DecodeError
  | unknownOpcode : Nat → DecodeError
  | invalidEnumValue : Nat → DecodeError
  | stringEncodingError : DecodeError
deriving DecidableEq, Repr

/-- Equality of decode results is decidable, so concrete decodes can be
settled by evaluation. -/
instance {ε α : Type} [DecidableEq ε] [DecidableEq α] : DecidableEq (Except ε α) := fun
  | .error e, .error f =>
    if h : e = f then .isTrue (by rw [h]) else .isFalse (by intro hc; cases hc; exact h rfl)
  | .error _, .ok _ => .isFalse (by intro hc; cases hc)
  | .ok _, .error _ => .isFalse (by intro hc; cases hc)
  | .ok a, .ok b =>
    if h : a = b then .isTrue (by rw [h]) else .isFalse (by intro hc; cases hc; exact h rfl)

/-- Take exactly `n` octets off the front of the stream, failing as a stream
read does when fewer remain. -/
def readBytes (n : Nat) (s : List Byte) : Except DecodeError (List Byte × List Byte) :=
  if n ≤ s.length then .ok (s.take n, s.drop n) else .error .truncatedInput

/-- `uN::read_options` with big-endian: read `n` octets and assemble them
big-endian into an unsigned value. -/
def readUBe (n : Nat) (s : List Byte) : Except DecodeError (Nat × List Byte) :=
  (readBytes n s).map (fun p => (beValue p.1, p.2))

/-- Reinterpret an unsigned 32-bit pattern as the signed value `i32` holds. -/
def toSigned32 (v : Nat) : Int :=
  if v < 2 ^ 31 then (v : Int) else (v : Int) - 2 ^ 32

/-- `i32::read_options` with big-endian. -/
def readI32 (s : List Byte) : Except DecodeError (Int × List Byte) :=
  (readUBe 4 s).map (fun p => (toSigned32 p.1, p.2))

/-- Rust `as usize` on an `i32` value (64-bit target): two's-complement
reinterpretation into `[0, 2^64)`. -/
def i32AsUsize (v : Int) : Nat := (v % (2 : Int) ^ 64).toNat

/-- Modelled from the spec: the `JdwpIdSizes` identifier-width context imported
by `commands.rs` from the crate root (file not in scope) — five byte-widths
(field, method, object, reference-type, frame), each expected in {1,2,4,8}. -/
structure JdwpIdSizes where
  field_id_size : Nat
  method_id_size : Nat
  object_id_size : Nat
  reference_type_id_size : Nat
  frame_id_size : Nat
deriving DecidableEq, Repr

/-- `VariableLengthId` from the source: an opaque identifier held as `u64`. -/
structure VariableLengthId where
  value : Nat
deriving DecidableEq, Repr

/-- `VariableLengthId::read_options`: dispatch on the width argument to the
matching fixed-width unsigned big-endian read, widened to 64 bits; any other
width yields the custom unsupported-width error. -/
def VariableLengthId.read_options (width : Nat) (s : List Byte) :
    Except DecodeError (VariableLengthId × List Byte) :=
  if width = 1 then (readUBe 1 s).map (fun p => (⟨p.1⟩, p.2))
  else if width = 2 then (readUBe 2 s).map (fun p => (⟨p.1⟩, p.2))
  else if width = 4 then (readUBe 4 s).map (fun p => (⟨p.1⟩, p.2))
  else if width = 8 then (readUBe 8 s).map (fun p => (⟨p.1⟩, p.2))
  else .error (.unsupportedIdWidth width)

/-- Modelled from the spec: the one-byte type-tag enumeration (`TypeTag`,
imported by `commands.rs` from the crate root) distinguishing class,
interface and array reference types. -/
inductive TypeTag where
  | tagClass : TypeTag
  | tagInterface : TypeTag
  | tagArray : TypeTag
deriving DecidableEq, Repr

/-- Modelled from the spec: decoding a `TypeTag` reads one octet and fails
with an invalid-enumeration error outside the defined set (1 = class,
2 = interface, 3 = array). -/
def TypeTag.read_options (s : List Byte) : Except DecodeError (TypeTag × List Byte) :=
  match readUBe 1 s with
  | .error e => .error e
  | .ok (v, rest) =>
    if v = 1 then .ok (.tagClass, rest)
    else if v = 2 then .ok (.tagInterface, rest)
    else if v = 3 then .ok (.tagArray, rest)
    else .error (.invalidEnumValue v)

/-- Modelled from the spec: `ClassStatus`, a 32-bit class-status flag set
(imported by `commands.rs` from the crate root), held as its raw big-endian
32-bit pattern. -/
structure ClassStatus where
  bits : Nat
deriving DecidableEq, Repr

/-- Modelled from the spec: decoding a `ClassStatus` reads one 32-bit
big-endian value. -/
def ClassStatus.read_options (s : List Byte) : Except DecodeError (ClassStatus × List Byte) :=
  (readUBe 4 s).map (fun p => (⟨p.1⟩, p.2))

/-- One step of the UTF-8 acceptor (RFC 3629): `expected` continuation octets
remain, the next of which must lie in `[lo, hi]`; later continuation octets of
the same code point must lie in `[128, 191]`. At `expected = 0` the head octet
starts a fresh code point and fixes the number and first-octet range of its
continuation octets. -/
def utf8Run : List Byte → Nat → Nat → Nat → Bool
  | [], expected, _, _ => expected == 0
  | b :: t, 0, _, _ =>
    if b.val < 128 then utf8Run t 0 128 191
    else if 194 ≤ b.val && b.val ≤ 223 then utf8Run t 1 128 191
    else if b.val = 224 then utf8Run t 2 160 191
    else if (225 ≤ b.val && b.val ≤ 236) || b.val = 238 || b.val = 239 then utf8Run t 2 128 191
    else if b.val = 237 then utf8Run t 2 128 159
    else if b.val = 240 then utf8Run t 3 144 191
    else if 241 ≤ b.val && b.val ≤ 243 then utf8Run t 3 128 191
    else if b.val = 244 then utf8Run t 3 128 143
    else false
  | b :: t, n + 1, lo, hi =>
    if lo ≤ b.val && b.val ≤ hi then utf8Run t n 128 191 else false

/-- UTF-8 well-formedness of a byte list (RFC 3629 table of valid sequences). -/
def utf8Valid (l : List Byte) : Bool := utf8Run l 0 128 191

/-- Modelled from the spec: `JdwpString` (imported by `commands.rs` from the
crate root), a length-prefixed UTF-8 string held here as its raw octets. -/
structure JdwpString where
  data : List Byte
deriving DecidableEq, Repr

/-- Modelled from the spec: decoding a `JdwpString` reads a signed 32-bit
byte-length prefix, then exactly that many octets (no terminator); a declared
length exceeding the remaining stream is a truncation error and octets that
are not valid UTF-8 are an encoding error. -/
def JdwpString.read_options (s : List Byte) : Except DecodeError (JdwpString × List Byte) :=
  match readI32 s with
  | .error e => .error e
  | .ok (len, s1) =>
    if len < 0 then .error .truncatedInput
    else
      match readBytes len.toNat s1 with
      | .error e => .error e
      | .ok (bs, s2) =>
        if utf8Valid bs then .ok (⟨bs⟩, s2) else .error .stringEncodingError

/-- The `Command` enumeration from the source: the VirtualMachine command set
(set number 1) with command numbers 1 through 9. -/
inductive Command where
  | VirtualMachineVersion : Command
  | VirtualMachineClassesBySignature : Command
  | VirtualMachineAllClasses : Command
  | VirtualMachineAllThreads : Command
  | VirtualMachineTopLevelThreadGroups : Command
  | VirtualMachineDispose : Command
  | VirtualMachineIDSizes : Command
  | VirtualMachineSuspend : Command
  | VirtualMachineResume : Command
deriving DecidableEq, Repr

/-- The `repr(u16)` discriminant of each `Command` variant, exactly the
`(1 << 8) | k` values assigned in the source. -/
def Command.toWire : Command → Nat
  | .VirtualMachineVersion => (1 <<< 8) ||| 1
  | .VirtualMachineClassesBySignature => (1 <<< 8) ||| 2
  | .VirtualMachineAllClasses => (1 <<< 8) ||| 3
  | .VirtualMachineAllThreads => (1 <<< 8) ||| 4
  | .VirtualMachineTopLevelThreadGroups => (1 <<< 8) ||| 5
  | .VirtualMachineDispose => (1 <<< 8) ||| 6
  | .VirtualMachineIDSizes => (1 <<< 8) ||| 7
  | .VirtualMachineSuspend => (1 <<< 8) ||| 8
  | .VirtualMachineResume => (1 <<< 8) ||| 9

/-- Modelled from the spec: the decode direction of the `binrw_enum!`-generated
opcode registry (the macro lives in the crate root, not in scope): a two-byte
value maps back to the variant with that discriminant and every other value
fails with an unknown-opcode error. -/
def Command.fromWire (v : Nat) : Except DecodeError Command :=
  if v = Command.VirtualMachineVersion.toWire then .ok .VirtualMachineVersion
  else if v = Command.VirtualMachineClassesBySignature.toWire then
    .ok .VirtualMachineClassesBySignature
  else if v = Command.VirtualMachineAllClasses.toWire then .ok .VirtualMachineAllClasses
  else if v = Command.VirtualMachineAllThreads.toWire then .ok .VirtualMachineAllThreads
  else if v = Command.VirtualMachineTopLevelThreadGroups.toWire then
    .ok .VirtualMachineTopLevelThreadGroups
  else if v = Command.VirtualMachineDispose.toWire then .ok .VirtualMachineDispose
  else if v = Command.VirtualMachineIDSizes.toWire then .ok .VirtualMachineIDSizes
  else if v = Command.VirtualMachineSuspend.toWire then .ok .VirtualMachineSuspend
  else if v = Command.VirtualMachineResume.toWire then .ok .VirtualMachineResume
  else .error (.unknownOpcode v)

/-- Modelled from the spec: the encode direction of the opcode registry — a
`Command` is written as its discriminant on two big-endian octets. -/
def Command.write (c : Command) : List Byte := beBytes 2 c.toWire

/-- Modelled from the spec: reading a `Command` reads a two-byte big-endian
value and maps it through the registry. -/
def Command.read_options (s : List Byte) : Except DecodeError (Command × List Byte) :=
  match readUBe 2 s with
  | .error e => .error e
  | .ok (v, rest) => (Command.fromWire v).map (fun c => (c, rest))

/-- `CommandPacketHeader` from the source: length, correlation id, flags and
the command opcode. -/
structure CommandPacketHeader where
  length : Nat
  id : Nat
  flags : Nat
  command : Command
deriving DecidableEq, Repr

/-- The write direction of the `#[binrw] #[brw(big)]` derive on
`CommandPacketHeader`: fields in declaration order, big-endian
(u32, u32, u8, u16). -/
def CommandPacketHeader.write (h : CommandPacketHeader) : List Byte :=
  beBytes 4 h.length ++ beBytes 4 h.id ++ beBytes 1 h.flags ++ Command.write h.command

/-- The read direction of the `#[binrw] #[brw(big)]` derive on
`CommandPacketHeader`: fields in declaration order, big-endian. -/
def CommandPacketHeader.read_options (s : List Byte) :
    Except DecodeError (CommandPacketHeader × List Byte) :=
  match readUBe 4 s with
  | .error e => .error e
  | .ok (len, s1) =>
    match readUBe 4 s1 with
    | .error e => .error e
    | .ok (i, s2) =>
      match readUBe 1 s2 with
      | .error e => .error e
      | .ok (f, s3) =>
        match Command.read_options s3 with
        | .error e => .error e
        | .ok (c, s4) => .ok (⟨len, i, f, c⟩, s4)

/-- `CommandPacketHeader::get_length` from the source. -/
def CommandPacketHeader.get_length : Nat := 4 + 4 + 1 + 2

/-- Modelled from the spec: `encode_command_header(id, flags, command,
payload_length)` builds the 11-byte command header whose length field is
11 plus the payload length. -/
def encode_command_header (id flags : Nat) (c : Command) (payload_length : Nat) : List Byte :=
  CommandPacketHeader.write ⟨11 + payload_length, id, flags, c⟩

/-- `ReplyPacketHeader` from the source: length, correlation id, flags and the
error code in place of the opcode. -/
structure ReplyPacketHeader where
  length : Nat
  id : Nat
  flags : Nat
  error_code : Nat
deriving DecidableEq, Repr

/-- `ReplyPacketHeader::default` from the source. -/
def ReplyPacketHeader.default : ReplyPacketHeader :=
  { length := 0, id := 0xFFFFFFFF, flags := 0, error_code := 0 }

/-- `ReplyPacketHeader::get_length` from the source. -/
def ReplyPacketHeader.get_length : Nat := 4 + 4 + 1 + 2

/-- `ReplyPacketHeader::is_success` from the source. -/
def ReplyPacketHeader.is_success (h : ReplyPacketHeader) : Bool := h.error_code == 0

/-- The repeated-record loop shared by the reply decoders: read `n` records in
stream order, aborting the whole read on the first failing record, exactly as
the source's `for _ in 0..n { v.push(T::read_options(..)?) }` does. -/
def readRecords (f : List Byte → Except DecodeError (α × List Byte)) :
    Nat → List Byte → Except DecodeError (List α × List Byte)
  | 0, s => .ok ([], s)
  | n + 1, s =>
    match f s with
    | .error e => .error e
    | .ok (a, s1) =>
      match readRecords f n s1 with
      | .error e => .error e
      | .ok (as, s2) => .ok (a :: as, s2)

/-- One class record of a ClassesBySignature reply, from the source. -/
structure ClassesBySignatureReplyClass where
  ref_type_tag : TypeTag
  type_id : VariableLengthId
  status : ClassStatus
deriving DecidableEq, Repr

/-- `ClassesBySignatureReplyClass::read_options` from the source: a type tag,
then a `VariableLengthId` at the reference-type width from the context, then a
class status. -/
def ClassesBySignatureReplyClass.read_options (args : JdwpIdSizes) (s : List Byte) :
    Except DecodeError (ClassesBySignatureReplyClass × List Byte) :=
  match TypeTag.read_options s with
  | .error e => .error e
  | .ok (tag, s1) =>
    match VariableLengthId.read_options args.reference_type_id_size s1 with
    | .error e => .error e
    | .ok (tid, s2) =>
      match ClassStatus.read_options s2 with
      | .error e => .error e
      | .ok (st, s3) => .ok (⟨tag, tid, st⟩, s3)

/-- `ClassesBySignatureReply` from the source. -/
structure ClassesBySignatureReply where
  classes : List ClassesBySignatureReplyClass
deriving DecidableEq, Repr

/-- `ClassesBySignatureReply::read_options` from the source: a signed 32-bit
count, then the record loop; `for _ in 0..classes_length` runs
`classes_length.toNat` times (zero when the count is negative). -/
def ClassesBySignatureReply.read_options (args : JdwpIdSizes) (s : List Byte) :
    Except DecodeError (ClassesBySignatureReply × List Byte) :=
  match readI32 s with
  | .error e => .error e
  | .ok (classes_length, s1) =>
    match readRecords (ClassesBySignatureReplyClass.read_options args) classes_length.toNat s1 with
    | .error e => .error e
    | .ok (classes, s2) => .ok (⟨classes⟩, s2)

/-- The capacity `ClassesBySignatureReply::read_options` hands to
`Vec::with_capacity`: the decoded signed count reinterpreted by `as usize`,
with no non-negativity check in between. -/
def ClassesBySignatureReply.requested_capacity (s : List Byte) : Except DecodeError Nat :=
  (readI32 s).map (fun p => i32AsUsize p.1)

/-- One class record of an AllClasses reply, from the source. -/
structure AllClassesReplyClass where
  ref_type_tag : TypeTag
  type_id : VariableLengthId
  signature : JdwpString
  status : ClassStatus
deriving DecidableEq, Repr

/-- `AllClassesReplyClass::read_options` from the source: a type tag, a
`VariableLengthId` at the reference-type width, a length-prefixed signature
string, then a class status. -/
def AllClassesReplyClass.read_options (args : JdwpIdSizes) (s : List Byte) :
    Except DecodeError (AllClassesReplyClass × List Byte) :=
  match TypeTag.read_options s with
  | .error e => .error e
  | .ok (tag, s1) =>
    match VariableLengthId.read_options args.reference_type_id_size s1 with
    | .error e => .error e
    | .ok (tid, s2) =>
      match JdwpString.read_options s2 with
      | .error e => .error e
      | .ok (sig, s3) =>
        match ClassStatus.read_options s3 with
        | .error e => .error e
        | .ok (st, s4) => .ok (⟨tag, tid, sig, st⟩, s4)

/-- `AllClassesReply` from the source. -/
structure AllClassesReply where
  classes : List AllClassesReplyClass
deriving DecidableEq, Repr

/-- `AllClassesReply::read_options` from the source: a signed 32-bit count,
then the record loop, which runs `classes_length.toNat` times. -/
def AllClassesReply.read_options (args : JdwpIdSizes) (s : List Byte) :
    Except DecodeError (AllClassesReply × List Byte) :=
  match readI32 s with
  | .error e => .error e
  | .ok (classes_length, s1) =>
    match readRecords (AllClassesReplyClass.read_options args) classes_length.toNat s1 with
    | .error e => .error e
    | .ok (classes, s2) => .ok (⟨classes⟩, s2)

/-- The capacity `AllClassesReply::read_options` hands to `Vec::with_capacity`:
the decoded signed count reinterpreted by `as usize`, unchecked. -/
def AllClassesReply.requested_capacity (s : List Byte) : Except DecodeError Nat :=
  (readI32 s).map (fun p => i32AsUsize p.1)

/-- One thread record of an AllThreads reply, from the source. -/
structure AllThreadsReplyThread where
  thread_id : VariableLengthId
deriving DecidableEq, Repr

/-- `AllThreadsReplyThread::read_options` from the source: one
`VariableLengthId` at the object width from the context. -/
def AllThreadsReplyThread.read_options (args : JdwpIdSizes) (s : List Byte) :
    Except DecodeError (AllThreadsReplyThread × List Byte) :=
  (VariableLengthId.read_options args.object_id_size s).map (fun p => (⟨p.1⟩, p.2))

/-- `AllThreadsReply` from the source. -/
structure AllThreadsReply where
  threads : List AllThreadsReplyThread
deriving DecidableEq, Repr

/-- `AllThreadsReply::read_options` from the source: an unsigned 32-bit count,
then exactly that many thread records in stream order. -/
def AllThreadsReply.read_options (args : JdwpIdSizes) (s : List Byte) :
    Except DecodeError (AllThreadsReply × List Byte) :=
  match readUBe 4 s with
  | .error e => .error e
  | .ok (length, s1) =>
    match readRecords (AllThreadsReplyThread.read_options args) length s1 with
    | .error e => .error e
    | .ok (threads, s2) => .ok (⟨threads⟩, s2)

/-- One thread-group record of a TopLevelThreadGroups reply, from the source. -/
structure TopLevelThreadGroupsReplyThreadGroup where
  thread_group_id : VariableLengthId
deriving DecidableEq, Repr

/-- `TopLevelThreadGroupsReplyThreadGroup::read_options` from the source: one
`VariableLengthId` at the object width from the context. -/
def TopLevelThreadGroupsReplyThreadGroup.read_options (args : JdwpIdSizes) (s : List Byte) :
    Except DecodeError (TopLevelThreadGroupsReplyThreadGroup × List Byte) :=
  (VariableLengthId.read_options args.object_id_size s).map (fun p => (⟨p.1⟩, p.2))

/-- `TopLevelThreadGroupsReply` from the source. -/
structure TopLevelThreadGroupsReply where
  threads_groups : List TopLevelThreadGroupsReplyThreadGroup
deriving DecidableEq, Repr

/-- `TopLevelThreadGroupsReply::read_options` from the source: an unsigned
32-bit count, then exactly that many thread-group records in stream order. -/
def TopLevelThreadGroupsReply.read_options (args : JdwpIdSizes) (s : List Byte) :
    Except DecodeError (TopLevelThreadGroupsReply × List Byte) :=
  match readUBe 4 s with
  | .error e => .error e
  | .ok (length, s1) =>
    match readRecords (TopLevelThreadGroupsReplyThreadGroup.read_options args) length s1 with
    | .error e => .error e
    | .ok (groups, s2) => .ok (⟨groups⟩, s2)

/-- `IdSizesReply` from the source: five signed 32-bit sizes. -/
structure IdSizesReply where
  field_id_size : Int
  method_id_size : Int
  object_id_size : Int
  reference_type_id_size : Int
  frame_id_size : Int
deriving DecidableEq, Repr

/-- The read direction of the `#[binrw] #[brw(big)]` derive on `IdSizesReply`:
five big-endian `i32` fields in declaration order, with no further
validation. -/
def IdSizesReply.read_options (s : List Byte) : Except DecodeError (IdSizesReply × List Byte) :=
  match readI32 s with
  | .error e => .error e
  | .ok (f, s1) =>
    match readI32 s1 with
    | .error e => .error e
    | .ok (m, s2) =>
      match readI32 s2 with
      | .error e => .error e
      | .ok (o, s3) =>
        match readI32 s3 with
        | .error e => .error e
        | .ok (r, s4) =>
          match readI32 s4 with
          | .error e => .error e
          | .ok (fr, s5) => .ok (⟨f, m, o, r, fr⟩, s5)

/-- A big-endian value fits in as many octets as were assembled. -/
theorem beValue_lt (bs : List Byte) : beValue bs < 256 ^ bs.length := by
  induction bs with
  | nil => simp [beValue]
  | cons b t ih =>
    have hb : b.val ≤ 255 := Nat.le_of_lt_succ b.isLt
    simp only [beValue, List.length_cons, pow_succ]
    calc b.val * 256 ^ t.length + beValue t
        < b.val * 256 ^ t.length + 256 ^ t.length := Nat.add_lt_add_left ih _
      _ ≤ 255 * 256 ^ t.length + 256 ^ t.length :=
          Nat.add_le_add_right (Nat.mul_le_mul_right _ hb) _
      _ = 256 ^ t.length * 256 := by ring

/-- Encoding on `w` octets produces `w` octets. -/
theorem beBytes_length (w v : Nat) : (beBytes w v).length = w := by
  induction w generalizing v with
  | zero => rfl
  | succ n ih => simp [beBytes, ih]

/-- Assembling a big-endian encoding recovers the value modulo the width. -/
theorem beValue_beBytes (w v : Nat) : beValue (beBytes w v) = v % 256 ^ w := by
  induction w with
  | zero => simp [beBytes, beValue, Nat.mod_one]
  | succ n ih =>
    simp only [beBytes, beValue, beBytes_length, byte, ih, pow_succ]
    rw [Nat.mod_mul]
    ring

/-- Reading exactly the length of a leading block returns that block and the
tail. -/
theorem readBytes_append (bs rest : List Byte) :
    readBytes bs.length (bs ++ rest) = .ok (bs, rest) := by
  have h : bs.length ≤ (bs ++ rest).length := by simp
  simp [readBytes, h, List.take_left, List.drop_left]

/-- A successful fixed-width read took exactly the first `n` octets. -/
theorem readUBe_ok {n : Nat} {s : List Byte} {v : Nat} {rest : List Byte}
    (h : readUBe n s = .ok (v, rest)) :
    n ≤ s.length ∧ v = beValue (s.take n) ∧ rest = s.drop n := by
  by_cases hc : n ≤ s.length
  · simp [readUBe, readBytes, hc, Except.map] at h
    exact ⟨hc, h.1.symm, h.2.symm⟩
  · simp [readUBe, readBytes, hc, Except.map] at h

/-- A fixed-width read on a long-enough stream succeeds with the assembled
prefix. -/
theorem readUBe_of_le {n : Nat} {s : List Byte} (h : n ≤ s.length) :
    readUBe n s = .ok (beValue (s.take n), s.drop n) := by
  simp [readUBe, readBytes, h, Except.map]

/-- Reading `n` octets off a leading block of length `n` assembles that block. -/
theorem readUBe_append (bs rest : List Byte) :
    readUBe bs.length (bs ++ rest) = .ok (beValue bs, rest) := by
  simp [readUBe, readBytes_append, Except.map]

/-- Reading back a `w`-octet big-endian encoding yields the value modulo the
width and leaves the tail. -/
theorem readUBe_beBytes (w v : Nat) (rest : List Byte) :
    readUBe w (beBytes w v ++ rest) = .ok (v % 256 ^ w, rest) := by
  have h := readUBe_append (beBytes w v) rest
  rwa [beBytes_length, beValue_beBytes] at h

/-- A successful fixed-width unsigned read is bounded by the width. -/
theorem readUBe_lt {n : Nat} {s : List Byte} {v : Nat} {rest : List Byte}
    (h : readUBe n s = .ok (v, rest)) : v < 256 ^ n := by
  obtain ⟨hle, hv, -⟩ := readUBe_ok h
  have := beValue_lt (s.take n)
  rw [List.length_take, Nat.min_eq_left hle] at this
  omega

/-- A signed 32-bit read on a long-enough stream. -/
theorem readI32_of_le {s : List Byte} (h : 4 ≤ s.length) :
    readI32 s = .ok (toSigned32 (beValue (s.take 4)), s.drop 4) := by
  simp [readI32, readUBe_of_le h, Except.map]

/-- A signed 32-bit read off a leading 4-octet block. -/
theorem readI32_append (bs rest : List Byte) (h : bs.length = 4) :
    readI32 (bs ++ rest) = .ok (toSigned32 (beValue bs), rest) := by
  have := readUBe_append bs rest
  rw [h] at this
  simp [readI32, this, Except.map]

/-- The record loop returns exactly as many records as it was asked for. -/
theorem readRecords_length {α : Type} {f : List Byte → Except DecodeError (α × List Byte)}
    {n : Nat} {s : List Byte} {l : List α} {s2 : List Byte}
    (h : readRecords f n s = .ok (l, s2)) : l.length = n := by
  induction n generalizing s l s2 with
  | zero =>
    simp only [readRecords] at h
    cases h
    rfl
  | succ m ih =>
    simp only [readRecords] at h
    split at h
    · cases h
    · split at h
      · cases h
      · rename_i heq
        cases h
        simp [ih heq]

/-- Every discriminant is a two-byte value. -/
theorem Command.toWire_lt (c : Command) : c.toWire < 2 ^ 16 := by
  cases c <;> decide

/-- The registry maps each discriminant back to its own variant. -/
theorem Command.fromWire_toWire (c : Command) : Command.fromWire c.toWire = .ok c := by
  cases c <;> rfl

/-- Reading back an encoded `Command` yields the variant and leaves the tail. -/
theorem Command.read_write (c : Command) (rest : List Byte) :
    Command.read_options (Command.write c ++ rest) = .ok (c, rest) := by
  have hlt : c.toWire < 256 ^ 2 := by
    have := Command.toWire_lt c
    have h2 : (256 : Nat) ^ 2 = 2 ^ 16 := by norm_num
    omega
  have h1 : readUBe 2 (beBytes 2 c.toWire ++ rest) = .ok (c.toWire, rest) := by
    have := readUBe_beBytes 2 c.toWire rest
    rwa [Nat.mod_eq_of_lt hlt] at this
  simp [Command.read_options, Command.write, h1, Command.fromWire_toWire, Except.map]

/-- Decoding a type tag off the front of a longer stream consumes exactly its
one octet. -/
theorem typeTag_read_cons (t : Byte) (tag : TypeTag) (rest : List Byte)
    (h : TypeTag.read_options [t] = .ok (tag, [])) :
    TypeTag.read_options (t :: rest) = .ok (tag, rest) := by
  have h1 : readUBe 1 (t :: rest) = .ok (t.val, rest) := by
    have := readUBe_append [t] rest
    simpa [beValue] using this
  have h2 : readUBe 1 [t] = .ok (t.val, []) := by
    have := readUBe_append [t] ([] : List Byte)
    simpa [beValue] using this
  simp only [TypeTag.read_options, h2] at h
  simp only [TypeTag.read_options, h1]
  split_ifs at h ⊢ <;> simp_all

/-- Decoding a `VariableLengthId` off a leading block of the dispatched width
assembles that block big-endian. -/
theorem variableLengthId_read_append (w : Nat) (idBs rest : List Byte)
    (hw : w = 1 ∨ w = 2 ∨ w = 4 ∨ w = 8) (hlen : idBs.length = w) :
    VariableLengthId.read_options w (idBs ++ rest) = .ok (⟨beValue idBs⟩, rest) := by
  have hr : readUBe w (idBs ++ rest) = .ok (beValue idBs, rest) := by
    rw [← hlen]
    exact readUBe_append idBs rest
  rcases hw with h | h | h | h <;> subst h <;>
    simp [VariableLengthId.read_options, hr, Except.map]

/-- Decoding a `ClassStatus` off a leading 4-octet block assembles it
big-endian. -/
theorem classStatus_read_append (statusBs rest : List Byte) (h : statusBs.length = 4) :
    ClassStatus.read_options (statusBs ++ rest) = .ok (⟨beValue statusBs⟩, rest) := by
  have hr : readUBe 4 (statusBs ++ rest) = .ok (beValue statusBs, rest) := by
    rw [← h]
    exact readUBe_append statusBs rest
  simp [ClassStatus.read_options, hr, Except.map]

/-- Decoding a `JdwpString` off its length prefix and payload consumes exactly
the prefix plus the declared number of octets. -/
theorem jdwpString_read_append (n : Nat) (sigBs rest : List Byte)
    (hn : n < 2 ^ 31) (hlen : sigBs.length = n) (hval : utf8Valid sigBs = true) :
    JdwpString.read_options (beBytes 4 n ++ (sigBs ++ rest)) = .ok (⟨sigBs⟩, rest) := by
  have h1 : readI32 (beBytes 4 n ++ (sigBs ++ rest)) =
      .ok (toSigned32 (n % 256 ^ 4), sigBs ++ rest) := by
    have := readI32_append (beBytes 4 n) (sigBs ++ rest) (beBytes_length 4 n)
    rwa [beValue_beBytes] at this
  have hmod : n % 256 ^ 4 = n := by
    have h2 : (256 : Nat) ^ 4 = 2 ^ 32 := by norm_num
    have h3 : (2 : Nat) ^ 31 < 2 ^ 32 := by norm_num
    exact Nat.mod_eq_of_lt (by omega)
  have hsig : toSigned32 n = (n : Int) := by
    simp only [toSigned32]
    rw [if_pos hn]
  have h2 : readBytes n (sigBs ++ rest) = .ok (sigBs, rest) := by
    rw [← hlen]
    exact readBytes_append sigBs rest
  simp only [JdwpString.read_options, h1, hmod, hsig]
  rw [if_neg (by simp)]
  simp [Int.toNat_natCast, h2, hval]

/-- A successful ClassesBySignature reply decode read a signed count and then
the full record loop. -/
theorem classesBySignatureReply_read_ok {args : JdwpIdSizes} {s : List Byte}
    {r : ClassesBySignatureReply} {rest : List Byte}
    (h : ClassesBySignatureReply.read_options args s = .ok (r, rest)) :
    ∃ cnt s1, readI32 s = .ok (cnt, s1) ∧
      readRecords (ClassesBySignatureReplyClass.read_options args) cnt.toNat s1 =
        .ok (r.classes, rest) := by
  simp only [ClassesBySignatureReply.read_options] at h
  split at h
  · cases h
  · rename_i cnt s1 heq
    split at h
    · cases h
    · rename_i heq2
      cases h
      exact ⟨cnt, s1, heq, heq2⟩

/-- A successful AllClasses reply decode read a signed count and then the full
record loop. -/
theorem allClassesReply_read_ok {args : JdwpIdSizes} {s : List Byte}
    {r : AllClassesReply} {rest : List Byte}
    (h : AllClassesReply.read_options args s = .ok (r, rest)) :
    ∃ cnt s1, readI32 s = .ok (cnt, s1) ∧
      readRecords (AllClassesReplyClass.read_options args) cnt.toNat s1 =
        .ok (r.classes, rest) := by
  simp only [AllClassesReply.read_options] at h
  split at h
  · cases h
  · rename_i cnt s1 heq
    split at h
    · cases h
    · rename_i heq2
      cases h
      exact ⟨cnt, s1, heq, heq2⟩

/-- A successful AllThreads reply decode read an unsigned count and then the
full record loop. -/
theorem allThreadsReply_read_ok {args : JdwpIdSizes} {s : List Byte}
    {r : AllThreadsReply} {rest : List Byte}
    (h : AllThreadsReply.read_options args s = .ok (r, rest)) :
    ∃ cnt s1, readUBe 4 s = .ok (cnt, s1) ∧
      readRecords (AllThreadsReplyThread.read_options args) cnt s1 =
        .ok (r.threads, rest) := by
  simp only [AllThreadsReply.read_options] at h
  split at h
  · cases h
  · rename_i cnt s1 heq
    split at h
    · cases h
    · rename_i heq2
      cases h
      exact ⟨cnt, s1, heq, heq2⟩

/-- A successful TopLevelThreadGroups reply decode read an unsigned count and
then the full record loop. -/
theorem topLevelThreadGroupsReply_read_ok {args : JdwpIdSizes} {s : List Byte}
    {r : TopLevelThreadGroupsReply} {rest : List Byte}
    (h : TopLevelThreadGroupsReply.read_options args s = .ok (r, rest)) :
    ∃ cnt s1, readUBe 4 s = .ok (cnt, s1) ∧
      readRecords (TopLevelThreadGroupsReplyThreadGroup.read_options args) cnt s1 =
        .ok (r.threads_groups, rest) := by
  simp only [TopLevelThreadGroupsReply.read_options] at h
  split at h
  · cases h
  · rename_i cnt s1 heq
    split at h
    · cases h
    · rename_i heq2
      cases h
      exact ⟨cnt, s1, heq, heq2⟩

/-- On the four supported widths, `VariableLengthId::read_options` is exactly
the fixed-width unsigned big-endian read of that width, widened. -/
theorem variableLengthId_read_dispatch {w : Nat} (hw : w = 1 ∨ w = 2 ∨ w = 4 ∨ w = 8)
    (s : List Byte) :
    VariableLengthId.read_options w s = (readUBe w s).map (fun p => (⟨p.1⟩, p.2)) := by
  rcases hw with h | h | h | h <;> subst h <;> simp [VariableLengthId.read_options]

/-- Claim C1: for every width in {1,2,4,8}, `VariableLengthId::read_options`
reads exactly that many bytes via the matching fixed-width unsigned big-endian
read and widens the result to a 64-bit value; for every other width argument
it returns a decode error without producing a `VariableLengthId`. -/
theorem c1_variableLengthId_width_dispatch (w : Nat) (s : List Byte) :
    ((w = 1 ∨ w = 2 ∨ w = 4 ∨ w = 8) →
      VariableLengthId.read_options w s =
        (readUBe w s).map (fun p => (⟨p.1⟩, p.2)) ∧
      ∀ r rest, VariableLengthId.read_options w s = .ok (r, rest) →
        w ≤ s.length ∧ r.value = beValue (s.take w) ∧ rest = s.drop w) ∧
    (¬(w = 1 ∨ w = 2 ∨ w = 4 ∨ w = 8) →
      VariableLengthId.read_options w s = .error (.unsupportedIdWidth w)) := by
  constructor
  · intro hw
    have heq := variableLengthId_read_dispatch hw s
    refine ⟨heq, ?_⟩
    intro r rest h
    rw [heq] at h
    cases hu : readUBe w s with
    | error e => rw [hu] at h; cases h
    | ok p =>
      obtain ⟨v, tail⟩ := p
      rw [hu] at h
      simp only [Except.map, Except.ok.injEq, Prod.mk.injEq] at h
      obtain ⟨hr, ht⟩ := h
      obtain ⟨hle, hv, hd⟩ := readUBe_ok hu
      subst hr ht
      exact ⟨hle, by rw [← hv], by rw [hd]⟩
  · intro hw
    push_neg at hw
    obtain ⟨h1, h2, h4, h8⟩ := hw
    simp [VariableLengthId.read_options, h1, h2, h4, h8]

/-- Witness for C1 at width 2 on a two-byte stream and at the unsupported
width 3. -/
theorem c1_variableLengthId_width_dispatch_witness :
    VariableLengthId.read_options 2 [1, 2] =
      (readUBe 2 [1, 2]).map (fun p => (⟨p.1⟩, p.2)) ∧
    VariableLengthId.read_options 3 [1, 2, 3] = .error (.unsupportedIdWidth 3) :=
  ⟨((c1_variableLengthId_width_dispatch 2 [1, 2]).1 (by decide)).1,
   (c1_variableLengthId_width_dispatch 3 [1, 2, 3]).2 (by decide)⟩

/-- Claim C2: for every defined `Command` variant, encoding it to its two-byte
big-endian wire value and then decoding that value yields the same variant;
and decoding any two-byte value outside the defined set fails with an
unknown-opcode error rather than yielding any `Command`. -/
theorem c2_command_roundtrip_and_reject :
    (∀ c : Command, Command.read_options (Command.write c) = .ok (c, [])) ∧
    (∀ v : Nat, v < 2 ^ 16 → (∀ c : Command, v ≠ c.toWire) →
      Command.read_options (beBytes 2 v) = .error (.unknownOpcode v)) := by
  constructor
  · intro c
    have := Command.read_write c []
    rwa [List.append_nil] at this
  · intro v hv hne
    have hlt : v < 256 ^ 2 := by
      have h2 : (256 : Nat) ^ 2 = 2 ^ 16 := by norm_num
      omega
    have h1 : readUBe 2 (beBytes 2 v) = .ok (v, []) := by
      have := readUBe_beBytes 2 v []
      rwa [List.append_nil, Nat.mod_eq_of_lt hlt] at this
    have e1 := hne Command.VirtualMachineVersion
    have e2 := hne Command.VirtualMachineClassesBySignature
    have e3 := hne Command.VirtualMachineAllClasses
    have e4 := hne Command.VirtualMachineAllThreads
    have e5 := hne Command.VirtualMachineTopLevelThreadGroups
    have e6 := hne Command.VirtualMachineDispose
    have e7 := hne Command.VirtualMachineIDSizes
    have e8 := hne Command.VirtualMachineSuspend
    have e9 := hne Command.VirtualMachineResume
    simp [Command.read_options, h1, Command.fromWire, Except.map,
      e1, e2, e3, e4, e5, e6, e7, e8, e9]

/-- Witness for C2: the registry rejects the two-byte value 0x0100, which is
no discriminant. -/
theorem c2_command_roundtrip_and_reject_witness :
    Command.read_options (beBytes 2 256) = .error (.unknownOpcode 256) :=
  c2_command_roundtrip_and_reject.2 256 (by decide) (by intro c; cases c <;> decide)

/-- Claim C10: `ReplyPacketHeader::default()` returns a header with length 0,
id 0xFFFFFFFF, flags 0 and error_code 0; `is_success` on that default header
returns true, and `is_success` returns true exactly when `error_code` is 0. -/
theorem c10_reply_default_and_is_success :
    ReplyPacketHeader.default = ⟨0, 0xFFFFFFFF, 0, 0⟩ ∧
    ReplyPacketHeader.is_success ReplyPacketHeader.default = true ∧
    ∀ h : ReplyPacketHeader, (ReplyPacketHeader.is_success h = true ↔ h.error_code = 0) := by
  refine ⟨rfl, rfl, ?_⟩
  intro h
  simp [ReplyPacketHeader.is_success]

/-- Witness for C10 at a concrete nonzero error code. -/
theorem c10_reply_default_and_is_success_witness :
    ReplyPacketHeader.is_success ⟨0, 0, 0, 7⟩ = true ↔ (7 : Nat) = 0 :=
  c10_reply_default_and_is_success.2.2 ⟨0, 0, 0, 7⟩

/-- Counterexample to claim C3: decoding an IdSizesReply payload that holds
five copies of the value 3 — each outside {1,2,4,8} — succeeds with those
values instead of failing with an invalid-size error. -/
theorem c3_idsizes_counterexample :
    IdSizesReply.read_options
        (beBytes 4 3 ++ (beBytes 4 3 ++ (beBytes 4 3 ++ (beBytes 4 3 ++ beBytes 4 3)))) =
      .ok (⟨3, 3, 3, 3, 3⟩, []) := by decide

/-- Claim C3 as amended: decoding an IdSizesReply payload reads five signed
32-bit big-endian integers in the fixed order field, method, object,
reference-type, frame, with no range validation — it succeeds on any stream
of at least 20 octets whatever the decoded values are. -/
theorem c3_idsizes_reads_five_i32_unvalidated (s : List Byte) (h : 20 ≤ s.length) :
    IdSizesReply.read_options s =
      .ok (⟨toSigned32 (beValue (s.take 4)),
            toSigned32 (beValue ((s.drop 4).take 4)),
            toSigned32 (beValue ((s.drop 8).take 4)),
            toSigned32 (beValue ((s.drop 12).take 4)),
            toSigned32 (beValue ((s.drop 16).take 4))⟩, s.drop 20) := by
  have d8 : (s.drop 4).drop 4 = s.drop 8 := by rw [List.drop_drop]
  have d12 : (s.drop 8).drop 4 = s.drop 12 := by rw [List.drop_drop]
  have d16 : (s.drop 12).drop 4 = s.drop 16 := by rw [List.drop_drop]
  have d20 : (s.drop 16).drop 4 = s.drop 20 := by rw [List.drop_drop]
  have l1 : (s.drop 4).length = s.length - 4 := List.length_drop 4 s
  have l2 : (s.drop 8).length = s.length - 8 := List.length_drop 8 s
  have l3 : (s.drop 12).length = s.length - 12 := List.length_drop 12 s
  have l4 : (s.drop 16).length = s.length - 16 := List.length_drop 16 s
  have r1 := readI32_of_le (s := s) (by omega)
  have r2 := readI32_of_le (s := s.drop 4) (by rw [l1]; omega)
  rw [d8] at r2
  have r3 := readI32_of_le (s := s.drop 8) (by rw [l2]; omega)
  rw [d12] at r3
  have r4 := readI32_of_le (s := s.drop 12) (by rw [l3]; omega)
  rw [d16] at r4
  have r5 := readI32_of_le (s := s.drop 16) (by rw [l4]; omega)
  rw [d20] at r5
  simp only [IdSizesReply.read_options, r1, r2, r3, r4, r5]

/-- Witness for C3 as amended: the 20-octet payload of five big-endian 8s
decodes to all five sizes equal to 8. -/
theorem c3_idsizes_reads_five_i32_unvalidated_witness :
    IdSizesReply.read_options
        (beBytes 4 8 ++ (beBytes 4 8 ++ (beBytes 4 8 ++ (beBytes 4 8 ++ beBytes 4 8)))) =
      .ok (⟨8, 8, 8, 8, 8⟩, []) :=
  (c3_idsizes_reads_five_i32_unvalidated
      (beBytes 4 8 ++ (beBytes 4 8 ++ (beBytes 4 8 ++ (beBytes 4 8 ++ beBytes 4 8))))
      (by decide)).trans (by decide)

/-- Claim C4 (which the code violates): neither signed-count decoder checks
the count for non-negativity — on the payload FF FF FF FF (count = −1) both
reply decoders size their record storage from the count reinterpreted by
`as usize` (2^64 − 1) and return an empty reply instead of rejecting the
payload. -/
theorem c4_negative_count_unchecked :
    ClassesBySignatureReply.read_options ⟨8, 8, 8, 8, 8⟩ [255, 255, 255, 255] =
      .ok (⟨[]⟩, []) ∧
    ClassesBySignatureReply.requested_capacity [255, 255, 255, 255] = .ok (2 ^ 64 - 1) ∧
    AllClassesReply.read_options ⟨8, 8, 8, 8, 8⟩ [255, 255, 255, 255] =
      .ok (⟨[]⟩, []) ∧
    AllClassesReply.requested_capacity [255, 255, 255, 255] = .ok (2 ^ 64 - 1) :=
  ⟨by decide, by decide, by decide, by decide⟩

/-- Claim C5: every multi-record reply decoder is atomic — a successful decode
carries exactly as many records as its count prefix declared (never a partial
record list), and a premature end-of-stream inside any record aborts the
whole decode with a single error. -/
theorem c5_multirecord_atomicity :
    (∀ (args : JdwpIdSizes) (s : List Byte) (r : ClassesBySignatureReply) (rest : List Byte),
      ClassesBySignatureReply.read_options args s = .ok (r, rest) →
      ∃ cnt s1, readI32 s = .ok (cnt, s1) ∧ r.classes.length = cnt.toNat) ∧
    (∀ (args : JdwpIdSizes) (s : List Byte) (r : AllClassesReply) (rest : List Byte),
      AllClassesReply.read_options args s = .ok (r, rest) →
      ∃ cnt s1, readI32 s = .ok (cnt, s1) ∧ r.classes.length = cnt.toNat) ∧
    (∀ (args : JdwpIdSizes) (s : List Byte) (r : AllThreadsReply) (rest : List Byte),
      AllThreadsReply.read_options args s = .ok (r, rest) →
      ∃ cnt s1, readUBe 4 s = .ok (cnt, s1) ∧ r.threads.length = cnt) ∧
    (∀ (args : JdwpIdSizes) (s : List Byte) (r : TopLevelThreadGroupsReply) (rest : List Byte),
      TopLevelThreadGroupsReply.read_options args s = .ok (r, rest) →
      ∃ cnt s1, readUBe 4 s = .ok (cnt, s1) ∧ r.threads_groups.length = cnt) ∧
    ClassesBySignatureReply.read_options ⟨8, 8, 8, 8, 8⟩
        ([0, 0, 0, 2] ++ ([1] ++ (beBytes 8 5 ++ (beBytes 4 4 ++ [1])))) =
      .error .truncatedInput ∧
    AllClassesReply.read_options ⟨8, 8, 8, 8, 8⟩
        ([0, 0, 0, 1] ++ ([1] ++ (beBytes 8 5 ++ ([0, 0, 0, 5] ++ [65])))) =
      .error .truncatedInput ∧
    AllThreadsReply.read_options ⟨8, 8, 8, 8, 8⟩ ([0, 0, 0, 2] ++ beBytes 8 1) =
      .error .truncatedInput ∧
    TopLevelThreadGroupsReply.read_options ⟨8, 8, 8, 8, 8⟩ ([0, 0, 0, 1] ++ [0, 0, 0, 0]) =
      .error .truncatedInput := by
  refine ⟨?_, ?_, ?_, ?_, by decide, by decide, by decide, by decide⟩
  · intro args s r rest h
    obtain ⟨cnt, s1, h1, h2⟩ := classesBySignatureReply_read_ok h
    exact ⟨cnt, s1, h1, readRecords_length h2⟩
  · intro args s r rest h
    obtain ⟨cnt, s1, h1, h2⟩ := allClassesReply_read_ok h
    exact ⟨cnt, s1, h1, readRecords_length h2⟩
  · intro args s r rest h
    obtain ⟨cnt, s1, h1, h2⟩ := allThreadsReply_read_ok h
    exact ⟨cnt, s1, h1, readRecords_length h2⟩
  · intro args s r rest h
    obtain ⟨cnt, s1, h1, h2⟩ := topLevelThreadGroupsReply_read_ok h
    exact ⟨cnt, s1, h1, readRecords_length h2⟩

/-- Witness for C5: an empty ClassesBySignature reply (count 0) decodes with
exactly zero records. -/
theorem c5_multirecord_atomicity_witness :
    ∃ cnt s1, readI32 [0, 0, 0, 0] = .ok (cnt, s1) ∧
      (ClassesBySignatureReply.mk []).classes.length = cnt.toNat :=
  c5_multirecord_atomicity.1 ⟨8, 8, 8, 8, 8⟩ [0, 0, 0, 0] ⟨[]⟩ [] (by decide)

/-- Claim C6: decoding an AllThreadsReply reads an unsigned 32-bit big-endian
count and then exactly that many `VariableLengthId` values at the object
width from the context, preserving stream order; with object_id_size = 8, the
payload 00 00 00 02 followed by 8-byte big-endian 1 and 2 yields exactly the
thread ids 1 and 2 in that order. -/
theorem c6_allthreads_count_then_ids :
    (∀ (args : JdwpIdSizes) (s : List Byte) (r : AllThreadsReply) (rest : List Byte),
      AllThreadsReply.read_options args s = .ok (r, rest) →
      ∃ cnt s1, readUBe 4 s = .ok (cnt, s1) ∧
        readRecords (AllThreadsReplyThread.read_options args) cnt s1 = .ok (r.threads, rest) ∧
        r.threads.length = cnt) ∧
    AllThreadsReply.read_options ⟨8, 8, 8, 8, 8⟩
        ([0, 0, 0, 2] ++ (beBytes 8 1 ++ beBytes 8 2)) =
      .ok (⟨[⟨⟨1⟩⟩, ⟨⟨2⟩⟩]⟩, []) := by
  constructor
  · intro args s r rest h
    obtain ⟨cnt, s1, h1, h2⟩ := allThreadsReply_read_ok h
    exact ⟨cnt, s1, h1, h2, readRecords_length h2⟩
  · decide

/-- Witness for C6: the count-then-records shape at a concrete one-thread
payload. -/
theorem c6_allthreads_count_then_ids_witness :
    ∃ cnt s1, readUBe 4 ([0, 0, 0, 1] ++ beBytes 8 7) = .ok (cnt, s1) ∧
      readRecords (AllThreadsReplyThread.read_options ⟨8, 8, 8, 8, 8⟩) cnt s1 =
        .ok ((AllThreadsReply.mk [⟨⟨7⟩⟩]).threads, []) ∧
      (AllThreadsReply.mk [⟨⟨7⟩⟩]).threads.length = cnt :=
  c6_allthreads_count_then_ids.1 ⟨8, 8, 8, 8, 8⟩ ([0, 0, 0, 1] ++ beBytes 8 7)
    ⟨[⟨⟨7⟩⟩]⟩ [] (by decide)

/-- Claim C7: each class record decodes as a one-byte type tag, then one
`VariableLengthId` at the reference-type width from the context, then (for
AllClassesReplyClass only) a length-prefixed signature string, then a 32-bit
class-status value; ClassesBySignatureReplyClass decodes the same fields with
no signature string between the id and the status. -/
theorem c7_class_record_shape (args : JdwpIdSizes) (t : Byte) (tag : TypeTag)
    (idBs statusBs rest rest2 sigBs : List Byte) (n : Nat)
    (hw : args.reference_type_id_size = 1 ∨ args.reference_type_id_size = 2 ∨
          args.reference_type_id_size = 4 ∨ args.reference_type_id_size = 8)
    (htag : TypeTag.read_options [t] = .ok (tag, []))
    (hid : idBs.length = args.reference_type_id_size)
    (hst : statusBs.length = 4)
    (hn : n < 2 ^ 31) (hsl : sigBs.length = n) (hutf : utf8Valid sigBs = true) :
    ClassesBySignatureReplyClass.read_options args (t :: (idBs ++ (statusBs ++ rest))) =
      .ok (⟨tag, ⟨beValue idBs⟩, ⟨beValue statusBs⟩⟩, rest) ∧
    AllClassesReplyClass.read_options args
        (t :: (idBs ++ (beBytes 4 n ++ (sigBs ++ (statusBs ++ rest2))))) =
      .ok (⟨tag, ⟨beValue idBs⟩, ⟨sigBs⟩, ⟨beValue statusBs⟩⟩, rest2) := by
  constructor
  · have h1 := typeTag_read_cons t tag (idBs ++ (statusBs ++ rest)) htag
    have h2 := variableLengthId_read_append _ idBs (statusBs ++ rest) hw hid
    have h3 := classStatus_read_append statusBs rest hst
    simp only [ClassesBySignatureReplyClass.read_options, h1, h2, h3]
  · have h1 := typeTag_read_cons t tag
      (idBs ++ (beBytes 4 n ++ (sigBs ++ (statusBs ++ rest2)))) htag
    have h2 := variableLengthId_read_append _ idBs
      (beBytes 4 n ++ (sigBs ++ (statusBs ++ rest2))) hw hid
    have h4 := jdwpString_read_append n sigBs (statusBs ++ rest2) hn hsl hutf
    have h3 := classStatus_read_append statusBs rest2 hst
    simp only [AllClassesReplyClass.read_options, h1, h2, h4, h3]

/-- Witness for C7: a concrete class record (tag 1, 4-byte reference-type id
5, signature "A", status 4) in both record formats. -/
theorem c7_class_record_shape_witness :
    ClassesBySignatureReplyClass.read_options ⟨8, 8, 8, 4, 8⟩
        ((1 : Byte) :: ([0, 0, 0, 5] ++ ([0, 0, 0, 4] ++ []))) =
      .ok (⟨.tagClass, ⟨beValue [0, 0, 0, 5]⟩, ⟨beValue [0, 0, 0, 4]⟩⟩, []) ∧
    AllClassesReplyClass.read_options ⟨8, 8, 8, 4, 8⟩
        ((1 : Byte) :: ([0, 0, 0, 5] ++ (beBytes 4 1 ++ ([65] ++ ([0, 0, 0, 4] ++ []))))) =
      .ok (⟨.tagClass, ⟨beValue [0, 0, 0, 5]⟩, ⟨[65]⟩, ⟨beValue [0, 0, 0, 4]⟩⟩, []) :=
  c7_class_record_shape ⟨8, 8, 8, 4, 8⟩ 1 .tagClass [0, 0, 0, 5] [0, 0, 0, 4] [] [] [65] 1
    (by decide) (by decide) (by decide) (by decide) (by decide) (by decide) (by decide)

/-- Claim C8: encoding a `CommandPacketHeader` with a given id, flags and
command and then decoding the produced bytes reproduces the same id, flags
and command; the encoded header occupies exactly 11 bytes (as both
`get_length` functions report), and the header's length field equals 11 plus
the supplied payload length. -/
theorem c8_header_roundtrip (id flags payload_length : Nat) (c : Command)
    (hid : id < 2 ^ 32) (hfl : flags < 2 ^ 8) (hpl : 11 + payload_length < 2 ^ 32) :
    CommandPacketHeader.read_options (encode_command_header id flags c payload_length) =
      .ok (⟨11 + payload_length, id, flags, c⟩, []) ∧
    (encode_command_header id flags c payload_length).length = 11 ∧
    CommandPacketHeader.get_length = 11 ∧
    ReplyPacketHeader.get_length = 11 := by
  have e4 : (256 : Nat) ^ 4 = 2 ^ 32 := by norm_num
  have e1 : (256 : Nat) ^ 1 = 2 ^ 8 := by norm_num
  refine ⟨?_, ?_, rfl, rfl⟩
  · have h1 : readUBe 4 (beBytes 4 (11 + payload_length) ++
        (beBytes 4 id ++ (beBytes 1 flags ++ Command.write c))) =
        .ok (11 + payload_length, beBytes 4 id ++ (beBytes 1 flags ++ Command.write c)) := by
      have := readUBe_beBytes 4 (11 + payload_length)
        (beBytes 4 id ++ (beBytes 1 flags ++ Command.write c))
      rwa [Nat.mod_eq_of_lt (by rw [e4]; omega)] at this
    have h2 : readUBe 4 (beBytes 4 id ++ (beBytes 1 flags ++ Command.write c)) =
        .ok (id, beBytes 1 flags ++ Command.write c) := by
      have := readUBe_beBytes 4 id (beBytes 1 flags ++ Command.write c)
      rwa [Nat.mod_eq_of_lt (by rw [e4]; omega)] at this
    have h3 : readUBe 1 (beBytes 1 flags ++ Command.write c) =
        .ok (flags, Command.write c) := by
      have := readUBe_beBytes 1 flags (Command.write c)
      rwa [Nat.mod_eq_of_lt (by rw [e1]; omega)] at this
    have h4 : Command.read_options (Command.write c) = .ok (c, []) := by
      have := Command.read_write c []
      rwa [List.append_nil] at this
    simp only [encode_command_header, CommandPacketHeader.write, List.append_assoc,
      CommandPacketHeader.read_options, h1, h2, h3, h4]
  · simp [encode_command_header, CommandPacketHeader.write, Command.write, beBytes_length]

/-- Witness for C8 at id 1, flags 0, the Version command and an empty
payload. -/
theorem c8_header_roundtrip_witness :
    CommandPacketHeader.read_options
        (encode_command_header 1 0 Command.VirtualMachineVersion 0) =
      .ok (⟨11 + 0, 1, 0, Command.VirtualMachineVersion⟩, []) ∧
    (encode_command_header 1 0 Command.VirtualMachineVersion 0).length = 11 ∧
    CommandPacketHeader.get_length = 11 ∧
    ReplyPacketHeader.get_length = 11 :=
  c8_header_roundtrip 1 0 0 Command.VirtualMachineVersion
    (by decide) (by decide) (by decide)

/-- Claim C9: for every width w in {1,2,4,8}, a successful
`VariableLengthId` decode zero-extends the w raw bytes, so the value is
strictly less than 2^(8·w); in particular the single byte 0xFF at width 1
decodes to 255, not 2^64 − 1. -/
theorem c9_variableLengthId_zero_extends :
    (∀ (w : Nat) (s : List Byte) (r : VariableLengthId) (rest : List Byte),
      (w = 1 ∨ w = 2 ∨ w = 4 ∨ w = 8) →
      VariableLengthId.read_options w s = .ok (r, rest) → r.value < 2 ^ (8 * w)) ∧
    VariableLengthId.read_options 1 [255] = .ok (⟨255⟩, []) := by
  constructor
  · intro w s r rest hw h
    rw [variableLengthId_read_dispatch hw] at h
    cases hu : readUBe w s with
    | error e => rw [hu] at h; cases h
    | ok p =>
      obtain ⟨v, tail⟩ := p
      rw [hu] at h
      simp only [Except.map, Except.ok.injEq, Prod.mk.injEq] at h
      obtain ⟨hr, -⟩ := h
      subst hr
      have hlt := readUBe_lt hu
      have hpow : (256 : Nat) ^ w = 2 ^ (8 * w) := by
        rw [show (256 : Nat) = 2 ^ 8 by norm_num, ← pow_mul]
      exact hpow ▸ hlt
  · decide

/-- Witness for C9: the width-1 decode of 0xFF is 255, below 2^8. -/
theorem c9_variableLengthId_zero_extends_witness :
    (VariableLengthId.mk 255).value < 2 ^ (8 * 1) :=
  c9_variableLengthId_zero_extends.1 1 [255] ⟨255⟩ [] (by decide) (by decide)

end Jdwp
